import Mathlib

/-!
Verification of `data_handler/handlers/loan_states/nostra_alpha/run.py`
(`NostraAlphaStateComputation`): the incremental event-ingestion loop
(`run`), its fetch bounds (`get_data`) and its page processor
(`process_data`), shallowly embedded in Lean.

Two layers are modelled:
* the control layer: the `while True` pagination loop of `run`, with its
  cursor `last_block`, bounded `retry` counter and the list of configured
  protocol addresses, embedded as fuel-indexed executable functions that
  also record the trace of issued fetches and of processed pages;
* the data layer: `process_data`, which builds a DataFrame from the raw
  records, selects the rows whose `key_name` is a key of the protocol's
  event mapping, replays them in order on a freshly created ledger state
  and projects the resulting loan entities to a flat snapshot.

`NostraAlphaState`, `process_event` and `get_result_df` live in modules
that are not part of the sources under verification; they are modelled
from the specification, as marked in their doc comments.
-/

/-- Raw Event Record (spec section 3): a type tag used for dispatch
(`key_name`, absent when the retrieved record lacks the field, which the
DataFrame renders as NaN), and the payload fields the modelled mutations
read: an account identifier, an asset identifier and an amount. -/
structure RawEvent where
  key_name : Option String
  account : String
  asset : String
  amount : Int
deriving DecidableEq

/-- Modelled from the spec: a Loan Position Record of `NostraAlphaState`
(section 3) — collateral and debt as mappings from asset identifier to
amount, kept as association lists in first-touch order.  The clamping
policy for negative amounts is supplied externally per the spec, so the
model applies plain integer deltas. -/
structure LoanEntity where
  collateral : List (String × Int)
  debt : List (String × Int)
deriving DecidableEq

/-- Modelled from the spec: a freshly referenced account starts with
zero-valued collateral and debt (section 4.1). -/
def zeroEntity : LoanEntity := ⟨[], []⟩

/-- Modelled from the spec: the Ledger of `NostraAlphaState.loan_entities`
— a mapping from account identifier to Loan Position Record, each account
appearing at most once (section 3). -/
abbrev Ledger := List (String × LoanEntity)

/-- Modelled from the spec: add a delta to one asset's amount in an
asset-to-amount mapping, creating the asset at the delta on first
reference. -/
def bumpAsset : List (String × Int) → String → Int → List (String × Int)
  | [], a, d => [(a, d)]
  | (a', v) :: rest, a, d =>
    if a' = a then (a', v + d) :: rest else (a', v) :: bumpAsset rest a d

/-- Modelled from the spec: apply a collateral delta to one account's
record, creating the account with zero-valued collateral and debt on
first reference (section 4.1); only the single addressed record is
touched. -/
def applyCollateral : Ledger → String → String → Int → Ledger
  | [], acct, a, d => [(acct, { zeroEntity with collateral := bumpAsset zeroEntity.collateral a d })]
  | (acct', ent) :: rest, acct, a, d =>
    if acct' = acct then
      (acct', { ent with collateral := bumpAsset ent.collateral a d }) :: rest
    else
      (acct', ent) :: applyCollateral rest acct a d

/-- Modelled from the spec: `process_event` of the computation base —
invokes the Ledger operation named by the resolved mutation kind with the
event payload (section 4.2).  The two mutation kinds exercised by the
spec's scenarios are a collateral deposit and a collateral withdrawal
(section 8); any other name leaves the ledger unchanged. -/
def process_event (st : Ledger) (method : String) (e : RawEvent) : Ledger :=
  if method = "process_deposit" then applyCollateral st e.account e.asset e.amount
  else if method = "process_withdrawal" then applyCollateral st e.account e.asset (-e.amount)
  else st

/-- A projected row: account identifier with its collateral and debt
mappings. -/
abbrev Row := String × List (String × Int) × List (String × Int)

/-- A projected snapshot: the flat rows handed to the sink. -/
abbrev Snapshot := List Row

/-- Modelled from the spec: `get_result_df` — the pure read-only
projection of the ledger's entity set to an ordered sequence of flat
rows, one per Loan Position Record (section 4.3). -/
def get_result_df (st : Ledger) : Snapshot :=
  st.map (fun p => (p.1, p.2.collateral, p.2.debt))

/-- The boolean mask `df["key_name"].isin(events_mapping.keys())` of
`process_data`, per record: true exactly when the record's `key_name`
field is present and is a key of the mapping (a missing field is NaN in
the DataFrame, and NaN is in no key set). -/
def registered (mapping : List (String × String)) (e : RawEvent) : Bool :=
  match e.key_name with
  | some k => mapping.any (fun p => p.1 == k)
  | none => false

/-- `events_mapping.get(row["key_name"], "") or ""` of `process_data`:
the mutation-kind name resolved for a row, the empty string when the tag
resolves to nothing. -/
def methodOf (mapping : List (String × String)) (e : RawEvent) : String :=
  match e.key_name with
  | some k => (List.lookup k mapping).getD ""
  | none => ""

/-- The rows of `df_filtered` in iteration order: the retrieved records
whose mask bit is set, in retrieved order (a pandas boolean-mask
selection keeps row order). -/
def dispatchTrace (mapping : List (String × String)) (data : List RawEvent) : List RawEvent :=
  data.filter (registered mapping)

/-- The ledger obtained by the `for index, row in df_filtered.iterrows()`
loop of `process_data`: the filtered rows replayed in order on the
freshly created `NostraAlphaState`. -/
def ledger_after (mapping : List (String × String)) (data : List RawEvent) : Ledger :=
  (dispatchTrace mapping data).foldl (fun st e => process_event st (methodOf mapping e) e) []

/-- `NostraAlphaStateComputation.process_data`: build the DataFrame,
access the `key_name` column (a `KeyError` when no retrieved record has
the field, since the column then does not exist), filter to the rows
whose tag is a key of `EVENTS_METHODS_MAPPING`, replay them in order on a
fresh state, and project the resulting loan entities.  The mapping is the
configuration table of `NostraAlphaState.EVENTS_METHODS_MAPPING`, passed
as a parameter. -/
def process_data (mapping : List (String × String)) (data : List RawEvent) :
    Except String Snapshot :=
  if data.any (fun e => e.key_name.isSome) then
    Except.ok (get_result_df (ledger_after mapping data))
  else
    Except.error "KeyError: key_name"

/-- `NostraAlphaStateComputation.get_data`: the block bounds of the query
issued to the API connector — `min_block_number` is `self.last_block`,
`max_block_number` is the `min_block` argument plus `PAGINATION_SIZE`. -/
def get_data_bounds (last_block min_block window : Nat) : Nat × Nat :=
  (last_block, min_block + window)

/-- The mutable instance state read and written by `run`: the pagination
cursor `self.last_block` and the local `retry` counter. -/
structure RunState where
  last_block : Nat
  retry : Nat
deriving DecidableEq

/-- One iteration of the `while True` body of `run` for the current
state, given the event source: `none` means `break` (leave the per-
address loop), `some (s', processed)` means the loop continues with state
`s'`, `processed` recording whether this iteration processed and saved
the page.  Mirrors: fetch `[last_block, last_block + window)`; if the
page is empty and `retry < max_retries`, advance the cursor and increment
`retry`; else if `retry == max_retries`, `break`; else process the page
and advance the cursor. -/
def stepIter {E : Type} (src : Nat → Nat → List E) (window maxR : Nat) (s : RunState) :
    Option (RunState × Bool) :=
  let page := src s.last_block (s.last_block + window)
  if page.isEmpty ∧ s.retry < maxR then
    some (⟨s.last_block + window, s.retry + 1⟩, false)
  else if s.retry = maxR then
    none
  else
    some (⟨s.last_block + window, s.retry⟩, true)

/-- The `while True` loop of `run` for one protocol address, fuel-indexed
(`none` when the fuel runs out before the loop breaks).  Returns the
fetches issued (as `(min_block, max_block)` bound pairs, in order), the
pages processed (in order) and the instance state at the `break`. -/
def runAddr {E : Type} (src : Nat → Nat → List E) (window maxR : Nat) :
    Nat → RunState → Option (List (Nat × Nat) × List (List E) × RunState)
  | 0, _ => none
  | fuel + 1, s =>
    let fetch := get_data_bounds s.last_block s.last_block window
    let page := src s.last_block (s.last_block + window)
    match stepIter src window maxR s with
    | none => some ([fetch], [], s)
    | some (s', processedQ) =>
      match runAddr src window maxR fuel s' with
      | none => none
      | some (fs, ps, s'') =>
        some (fetch :: fs, (if processedQ then [page] else []) ++ ps, s'')

/-- The `for protocol_address in self.PROTOCOL_ADDRESSES` loop of `run`:
each address runs the `while True` loop starting from the instance state
left by the previous address (`self.last_block` and `retry` are not
re-read between addresses).  Returns the issued fetches tagged with their
address, and the final instance state. -/
def runAll {E : Type} (srcOf : String → Nat → Nat → List E) (window maxR fuel : Nat) :
    List String → RunState → Option (List (String × Nat × Nat) × RunState)
  | [], s => some ([], s)
  | a :: rest, s =>
    match runAddr (srcOf a) window maxR fuel s with
    | none => none
    | some (fs, _, s') =>
      match runAll srcOf window maxR fuel rest s' with
      | none => none
      | some (fs', s'') => some (fs.map (fun p => (a, p.1, p.2)) ++ fs', s'')

/-- The snapshots handed to the sink over one run, as a function of the
sequence of processed pages: each page goes through `process_data` (a
raised error aborts the run) and its snapshot is saved; the accumulator
holds the last snapshot saved so far. -/
def runPages (mapping : List (String × String)) :
    List (List RawEvent) → Option Snapshot → Except String (Option Snapshot)
  | [], acc => Except.ok acc
  | p :: ps, _ =>
    match process_data mapping p with
    | Except.error e => Except.error e
    | Except.ok s => runPages mapping ps (some s)

/-- An event source that returns an empty page for every query. -/
def emptySrc {E : Type} : Nat → Nat → List E := fun _ _ => []

/-- A source that is empty on every window below block 2000 and non-empty
from there on. -/
def srcEmptyThenFull : Nat → Nat → List Nat :=
  fun lo _ => if lo < 2000 then [] else [7]

/-- A source whose only non-empty window is `[1000, 2000)`. -/
def srcOneBurst : Nat → Nat → List Nat :=
  fun lo _ => if lo = 1000 then [7] else []

/-- The spec's event mapping for the two mutation kinds its scenarios
exercise, modelled as configuration data (section 6). -/
def mappingC : List (String × String) :=
  [("Deposit", "process_deposit"), ("Withdrawal", "process_withdrawal")]

/-- A deposit of 100 of asset X for account A. -/
def evDeposit : RawEvent := ⟨some "Deposit", "A", "X", 100⟩

/-- A withdrawal of 40 of asset X for account A. -/
def evWithdraw : RawEvent := ⟨some "Withdrawal", "A", "X", 40⟩

/-- A record that lacks the `key_name` field. -/
def evNoKey : RawEvent := ⟨none, "B", "Y", 5⟩

/-- An event whose type tag is not a key of `mappingC`. -/
def evUnknown : RawEvent := ⟨some "Liquidation", "A", "X", 3⟩

/-- The list of `n` consecutive fetch windows of size `w` from block `b`. -/
def fetchWindows (b w : Nat) : Nat → List (Nat × Nat)
  | 0 => []
  | n + 1 => (b, b + w) :: fetchWindows (b + w) w n

/-- One-step unfolding of the per-address loop. -/
theorem runAddr_succ {E : Type} (src : Nat → Nat → List E) (w maxR fuel : Nat) (s : RunState) :
    runAddr src w maxR (fuel + 1) s =
      match stepIter src w maxR s with
      | none => some ([get_data_bounds s.last_block s.last_block w], [], s)
      | some (s', processedQ) =>
        match runAddr src w maxR fuel s' with
        | none => none
        | some (fs, ps, s'') =>
          some (get_data_bounds s.last_block s.last_block w :: fs,
            (if processedQ then [src s.last_block (s.last_block + w)] else []) ++ ps, s'') :=
  rfl

/-- Consecutive fetch windows, in closed form. -/
theorem fetchWindows_eq_range (w : Nat) :
    ∀ n b, fetchWindows b w n = (List.range n).map (fun i => (b + i * w, b + i * w + w)) := by
  intro n
  induction n with
  | zero => intro b; simp [fetchWindows]
  | succ n ih =>
    intro b
    rw [fetchWindows, ih (b + w), List.range_succ_eq_map, List.map_cons, List.map_map]
    refine congrArg₂ List.cons (by simp) ?_
    refine List.map_congr_left ?_
    intro i _
    simp only [Function.comp_apply, Prod.mk.injEq, Nat.succ_eq_add_one]
    constructor <;> ring

/-- The number of consecutive fetch windows. -/
theorem fetchWindows_length (b w : Nat) : ∀ n, (fetchWindows b w n).length = n := by
  intro n
  induction n generalizing b with
  | zero => rfl
  | succ n ih => simp [fetchWindows, ih]

/-- Breaking step: when the retry counter already equals `max_retries`,
one more iteration fetches once and leaves the per-address loop with the
state unchanged, whatever the page contains. -/
theorem runAddr_break {E : Type} (src : Nat → Nat → List E) (w maxR fuel : Nat)
    (s : RunState) (h : s.retry = maxR) :
    runAddr src w maxR (fuel + 1) s =
      some ([get_data_bounds s.last_block s.last_block w], [], s) := by
  rw [runAddr_succ]
  have hstep : stepIter src w maxR s = none := by
    simp [stepIter, h]
  rw [hstep]

/-- On the always-empty source, starting the per-address loop with
`maxR - k` retries already counted, the loop issues exactly `k + 1`
fetches, of consecutive windows, processes nothing, and breaks with the
cursor advanced `k` windows and the retry counter at `maxR`. -/
theorem runAddr_emptySrc (E : Type) (w maxR : Nat) :
    ∀ k r₀ b, r₀ + k = maxR →
      runAddr (emptySrc (E := E)) w maxR (k + 1) ⟨b, r₀⟩ =
        some (fetchWindows b w (k + 1), [], ⟨b + k * w, maxR⟩) := by
  intro k
  induction k with
  | zero =>
    intro r₀ b h
    simp only [Nat.add_zero] at h
    rw [runAddr_break (emptySrc (E := E)) w maxR 0 ⟨b, r₀⟩ h]
    simp [fetchWindows, get_data_bounds, h]
  | succ k ih =>
    intro r₀ b h
    have hlt : r₀ < maxR := by omega
    have hstep : stepIter (emptySrc (E := E)) w maxR ⟨b, r₀⟩ =
        some (⟨b + w, r₀ + 1⟩, false) := by
      simp [stepIter, emptySrc, hlt]
    have hrec := ih (r₀ + 1) (b + w) (by omega)
    rw [runAddr_succ, hstep]
    simp only [hrec, get_data_bounds]
    have hstate : b + w + k * w = b + (k + 1) * w := by ring
    simp [fetchWindows, hstate]

/-- C1, counterexample: with window 1000, max_retries 2, starting block 0
and a source that always returns an empty page, the per-address loop
issues 3 fetch calls — not 2 as claimed — and the third call does fetch
the range `[2000, 3000)`. -/
theorem claim1_counterexample :
    runAddr (emptySrc (E := Nat)) 1000 2 3 ⟨0, 0⟩ =
      some ([(0, 1000), (1000, 2000), (2000, 3000)], [], ⟨2000, 2⟩) ∧
    ([(0, 1000), (1000, 2000), (2000, 3000)] : List (Nat × Nat)).length ≠ 2 ∧
    ((2000, 3000) : Nat × Nat) ∈ [(0, 1000), (1000, 2000), (2000, 3000)] := by
  exact ⟨by decide, by decide, by decide⟩

/-- C1, amended: if the event source returns an empty page on every
fetch, the per-address loop (entered with retry counter 0) terminates —
it never loops indefinitely — after issuing exactly `max_retries + 1`
fetch calls, one more than the claim states, covering the consecutive
windows `[b + i·w, b + (i+1)·w)` for `i = 0 .. max_retries`; in
particular with window 1000, max_retries 2 and starting block 0 it issues
3 fetch calls and the last one covers `[2000, 3000)`. -/
theorem claim1_retry_bound (E : Type) (w maxR b : Nat) :
    runAddr (emptySrc (E := E)) w maxR (maxR + 1) ⟨b, 0⟩ =
      some (fetchWindows b w (maxR + 1), [], ⟨b + maxR * w, maxR⟩) ∧
    (fetchWindows b w (maxR + 1)).length = maxR + 1 ∧
    fetchWindows b w (maxR + 1) =
      (List.range (maxR + 1)).map (fun i => (b + i * w, b + i * w + w)) :=
  ⟨runAddr_emptySrc E w maxR maxR 0 b (Nat.zero_add maxR),
   fetchWindows_length b w (maxR + 1),
   fetchWindows_eq_range w (maxR + 1) b⟩

/-- C2, counterexample: on a source that is empty below block 2000 and
non-empty from there on, with window 1000 and max_retries 2, the third
fetch returns a non-empty page, yet the loop breaks and processes no page
at all — the non-empty page is discarded unprocessed because the retry
counter already equals max_retries. -/
theorem claim2_counterexample :
    runAddr srcEmptyThenFull 1000 2 5 ⟨0, 0⟩ =
      some ([(0, 1000), (1000, 2000), (2000, 3000)], [], ⟨2000, 2⟩) ∧
    srcEmptyThenFull 2000 3000 ≠ [] := by
  exact ⟨by decide, by decide⟩

/-- C2, amended: a fetch that returns a non-empty page leads to
processing only when the retry counter differs from max_retries — the
page is then the first one dispatched and handed onwards; when the retry
counter equals max_retries the iteration discards the non-empty page and
breaks out of the per-address loop with the state unchanged. -/
theorem claim2_nonempty_page (E : Type) (src : Nat → Nat → List E) (w maxR fuel : Nat)
    (s : RunState) (hne : src s.last_block (s.last_block + w) ≠ []) :
    (s.retry ≠ maxR → ∀ fs ps s'', runAddr src w maxR (fuel + 1) s = some (fs, ps, s'') →
      ∃ tl, ps = src s.last_block (s.last_block + w) :: tl) ∧
    (s.retry = maxR → runAddr src w maxR (fuel + 1) s =
      some ([get_data_bounds s.last_block s.last_block w], [], s)) := by
  have hfalse : (src s.last_block (s.last_block + w)).isEmpty = false := by
    cases hpage : src s.last_block (s.last_block + w) with
    | nil => exact absurd hpage hne
    | cons a l => rfl
  constructor
  · intro hr fs ps s'' hrun
    have hstep : stepIter src w maxR s = some (⟨s.last_block + w, s.retry⟩, true) := by
      simp [stepIter, hfalse, hr]
    simp only [runAddr_succ, hstep] at hrun
    cases hrec : runAddr src w maxR fuel ⟨s.last_block + w, s.retry⟩ with
    | none => rw [hrec] at hrun; exact absurd hrun (by simp)
    | some r =>
      obtain ⟨fs', ps', s3⟩ := r
      rw [hrec] at hrun
      simp only [if_pos, List.singleton_append, Option.some.injEq, Prod.mk.injEq] at hrun
      exact ⟨ps', hrun.2.1.symm⟩
  · intro hmax
    exact runAddr_break src w maxR fuel s hmax

/-- C2, witness: the amended statement instantiated at the source that
turns non-empty from block 2000, in the state reached after two empty
windows (retry counter 2 = max_retries). -/
theorem claim2_nonempty_page_witness :
    ((2 : Nat) ≠ 2 → ∀ fs ps s'', runAddr srcEmptyThenFull 1000 2 1 ⟨2000, 2⟩ = some (fs, ps, s'') →
      ∃ tl, ps = srcEmptyThenFull 2000 3000 :: tl) ∧
    ((2 : Nat) = 2 → runAddr srcEmptyThenFull 1000 2 1 ⟨2000, 2⟩ =
      some ([get_data_bounds 2000 2000 1000], [], ⟨2000, 2⟩)) :=
  claim2_nonempty_page Nat srcEmptyThenFull 1000 2 0 ⟨2000, 2⟩ (by decide)

/-- C3, counterexample: the page split changes the final snapshot.  The
stream "deposit 100 of X for A, withdraw 40 of X for A" delivered as one
page projects A's collateral in X as 60, but delivered as two pages it
projects -40, because each call to `process_data` replays its page on a
freshly created state; the two splits join to the same event stream yet
produce different final snapshots. -/
theorem claim3_counterexample :
    ([[evDeposit, evWithdraw]] : List (List RawEvent)).flatten =
      ([[evDeposit], [evWithdraw]] : List (List RawEvent)).flatten ∧
    runPages mappingC [[evDeposit, evWithdraw]] none =
      Except.ok (some [("A", [("X", 60)], [])]) ∧
    runPages mappingC [[evDeposit], [evWithdraw]] none =
      Except.ok (some [("A", [("X", -40)], [])]) ∧
    (some [("A", [("X", (60 : Int))], [])] : Option Snapshot) ≠
      some [("A", [("X", -40)], [])] := by
  exact ⟨by decide, by rfl, by rfl, by decide⟩

/-- C3, amended: each page is replayed on a freshly created ledger, so
the final projected snapshot of a run is exactly the projection of the
last page alone — page splits agree on the final snapshot only when they
agree on the last page, not in general. -/
theorem claim3_last_page (mapping : List (String × String)) (ps : List (List RawEvent))
    (p : List RawEvent) (s : Snapshot) (hp : process_data mapping p = Except.ok s)
    (hok : ∀ q ∈ ps, ∃ s', process_data mapping q = Except.ok s') :
    ∀ acc, runPages mapping (ps ++ [p]) acc = Except.ok (some s) := by
  induction ps with
  | nil =>
    intro acc
    simp [runPages, hp]
  | cons q qs ih =>
    intro acc
    obtain ⟨s', hs'⟩ := hok q (by simp)
    have hrest := ih (fun r hr => hok r (by simp [hr])) (some s')
    simp only [List.cons_append, runPages, hs']
    exact hrest

/-- C3, witness: the amended statement at the two-page split of the
deposit-then-withdraw stream — the final snapshot is the projection of
the withdrawal page alone. -/
theorem claim3_last_page_witness :
    runPages mappingC ([[evDeposit]] ++ [[evWithdraw]]) none =
      Except.ok (some [("A", [("X", -40)], [])]) :=
  claim3_last_page mappingC [[evDeposit]] [evWithdraw] [("A", [("X", -40)], [])]
    (by rfl)
    (by
      intro q hq
      simp only [List.mem_singleton] at hq
      subst hq
      exact ⟨[("A", [("X", 100)], [])], by rfl⟩)
    none

/-- C4, counterexample: the retry counter is not reset by a successful
non-empty fetch.  With the one-burst source, the iteration that fetches
the non-empty window `[1000, 2000)` in a state with retry counter 1
processes the page and continues with the counter still at 1, not 0. -/
theorem claim4_counterexample :
    stepIter srcOneBurst 1000 2 ⟨1000, 1⟩ = some (⟨2000, 1⟩, true) ∧
    srcOneBurst 1000 2000 ≠ [] ∧ (1 : Nat) ≠ 0 := by
  exact ⟨by decide, by decide, by decide⟩

/-- C4, amended: the retry counter is process-wide loop state, set to 0
once before the first address and never reset: every continuing
iteration leaves it unchanged or increments it (so it never decreases),
it stays bounded by max_retries, and an iteration whose fetch returns a
non-empty page leaves it exactly unchanged. -/
theorem claim4_retry_no_reset (E : Type) (src : Nat → Nat → List E) (w maxR : Nat)
    (s s' : RunState) (b : Bool) (h0 : s.retry ≤ maxR)
    (hstep : stepIter src w maxR s = some (s', b)) :
    s.retry ≤ s'.retry ∧ s'.retry ≤ maxR ∧
    (src s.last_block (s.last_block + w) ≠ [] → s'.retry = s.retry) := by
  by_cases hc : (src s.last_block (s.last_block + w)).isEmpty = true ∧ s.retry < maxR
  · have heq : stepIter src w maxR s = some (⟨s.last_block + w, s.retry + 1⟩, false) := by
      simp only [stepIter]
      rw [if_pos hc]
    rw [heq] at hstep
    simp only [Option.some.injEq, Prod.mk.injEq] at hstep
    obtain ⟨hs', _⟩ := hstep
    subst hs'
    exact ⟨Nat.le_succ _, hc.2, fun hne => absurd (List.isEmpty_iff.mp hc.1) hne⟩
  · by_cases hm : s.retry = maxR
    · have heq : stepIter src w maxR s = none := by
        simp only [stepIter]
        rw [if_neg hc, if_pos hm]
      rw [heq] at hstep
      exact Option.noConfusion hstep
    · have heq : stepIter src w maxR s = some (⟨s.last_block + w, s.retry⟩, true) := by
        simp only [stepIter]
        rw [if_neg hc, if_neg hm]
      rw [heq] at hstep
      simp only [Option.some.injEq, Prod.mk.injEq] at hstep
      obtain ⟨hs', _⟩ := hstep
      subst hs'
      exact ⟨Nat.le_refl _, h0, fun _ => rfl⟩

/-- C4, witness: the amended statement at the one-burst source in the
state fetching the non-empty window with retry counter 1. -/
theorem claim4_retry_no_reset_witness :
    (1 : Nat) ≤ 1 ∧ (1 : Nat) ≤ 2 ∧ (srcOneBurst 1000 2000 ≠ [] → 1 = 1) :=
  claim4_retry_no_reset Nat srcOneBurst 1000 2 ⟨1000, 1⟩ ⟨2000, 1⟩ true (by decide) (by decide)

/-- C5, counterexample: with two configured addresses and an always-empty
source (window 1000, max_retries 2, starting block 0), the second
address's only fetch covers `[2000, 3000)` — the previous address's final
cursor — and the range `[0, 1000)` is never fetched for it: the cursor is
not re-initialized from configuration for the next address. -/
theorem claim5_counterexample :
    runAll (fun _ => emptySrc (E := Nat)) 1000 2 4 ["A", "B"] ⟨0, 0⟩ =
      some ([("A", 0, 1000), ("A", 1000, 2000), ("A", 2000, 3000), ("B", 2000, 3000)],
        ⟨2000, 2⟩) ∧
    (("B", 0, 1000) : String × Nat × Nat) ∉
      [("A", (0 : Nat), (1000 : Nat)), ("A", 1000, 2000), ("A", 2000, 3000),
        ("B", 2000, 3000)] := by
  exact ⟨by decide, by decide⟩

/-- C5, amended: the instance state carries over between addresses — on
an always-empty source the first address scans max_retries + 1 windows
from the starting block, and the next address issues exactly one fetch,
whose lower bound is the first address's final cursor (and whose retry
counter is still max_retries), then breaks immediately. -/
theorem claim5_cursor_carryover (E : Type) (w maxR b : Nat) (a₁ a₂ : String) :
    runAll (fun _ => emptySrc (E := E)) w maxR (maxR + 1) [a₁, a₂] ⟨b, 0⟩ =
      some ((fetchWindows b w (maxR + 1)).map (fun p => (a₁, p.1, p.2)) ++
        [(a₂, b + maxR * w, b + maxR * w + w)], ⟨b + maxR * w, maxR⟩) := by
  have h1 := runAddr_emptySrc E w maxR maxR 0 b (Nat.zero_add maxR)
  have h2 := runAddr_break (emptySrc (E := E)) w maxR maxR
    ⟨b + maxR * w, maxR⟩ rfl
  simp [runAll, h1, h2, get_data_bounds]

/-- C6: an event whose type tag is absent from the event mapping is
filtered out before dispatch — inserting it anywhere in a page leaves
`process_data`'s outcome unchanged, no error is raised, and processing
proceeds normally (the page still projects to a snapshot). -/
theorem claim6_unknown_tag_noop (mapping : List (String × String)) (d1 d2 : List RawEvent)
    (e : RawEvent) (k : String) (hk : e.key_name = some k)
    (habs : ∀ p ∈ mapping, p.1 ≠ k)
    (hcol : (d1 ++ d2).any (fun x => x.key_name.isSome) = true) :
    process_data mapping (d1 ++ e :: d2) = process_data mapping (d1 ++ d2) ∧
    ∃ s, process_data mapping (d1 ++ d2) = Except.ok s := by
  have hreg : registered mapping e = false := by
    simp only [registered, hk]
    rw [List.any_eq_false]
    intro p hp
    simpa using habs p hp
  have hcol2 : (d1 ++ e :: d2).any (fun x => x.key_name.isSome) = true := by
    rw [List.any_eq_true] at hcol ⊢
    obtain ⟨x, hx, hxs⟩ := hcol
    refine ⟨x, ?_, hxs⟩
    simp only [List.mem_append, List.mem_cons] at hx ⊢
    tauto
  have hfil : dispatchTrace mapping (d1 ++ e :: d2) = dispatchTrace mapping (d1 ++ d2) := by
    simp [dispatchTrace, List.filter_append, List.filter_cons, hreg]
  constructor
  · simp [process_data, hcol, hcol2, ledger_after, hfil]
  · exact ⟨get_result_df (ledger_after mapping (d1 ++ d2)), by simp [process_data, hcol]⟩

/-- C6, witness: inserting the unregistered "Liquidation" event after the
deposit leaves the page's outcome unchanged and processing succeeds. -/
theorem claim6_unknown_tag_noop_witness :
    process_data mappingC ([evDeposit] ++ evUnknown :: []) =
      process_data mappingC ([evDeposit] ++ []) ∧
    ∃ s, process_data mappingC ([evDeposit] ++ []) = Except.ok s :=
  claim6_unknown_tag_noop mappingC [evDeposit] [] evUnknown "Liquidation" rfl
    (by decide) (by decide)

/-- C7: within one retrieved page, the rows with a registered mutation
are dispatched in exactly the retrieved order — the dispatch trace is an
order-preserving sublist of the page consisting of the registered events,
and the page's snapshot is the projection of the ledger obtained by
folding the mutations over that trace in order. -/
theorem claim7_dispatch_order (mapping : List (String × String)) (data : List RawEvent) :
    (dispatchTrace mapping data).Sublist data ∧
    (∀ e ∈ dispatchTrace mapping data, registered mapping e = true) ∧
    (data.any (fun e => e.key_name.isSome) = true →
      process_data mapping data =
        Except.ok (get_result_df ((dispatchTrace mapping data).foldl
          (fun st e => process_event st (methodOf mapping e) e) []))) := by
  refine ⟨List.filter_sublist data, ?_, ?_⟩
  · intro e he
    exact (List.mem_filter.mp he).2
  · intro h
    simp [process_data, h, ledger_after]

/-- C7, witness: the dispatch-order statement on a page mixing
registered, keyless and unregistered events. -/
theorem claim7_dispatch_order_witness :
    (dispatchTrace mappingC [evDeposit, evNoKey, evUnknown, evWithdraw]).Sublist
      [evDeposit, evNoKey, evUnknown, evWithdraw] ∧
    (∀ e ∈ dispatchTrace mappingC [evDeposit, evNoKey, evUnknown, evWithdraw],
      registered mappingC e = true) ∧
    process_data mappingC [evDeposit, evNoKey, evUnknown, evWithdraw] =
      Except.ok (get_result_df
        ((dispatchTrace mappingC [evDeposit, evNoKey, evUnknown, evWithdraw]).foldl
          (fun st e => process_event st (methodOf mappingC e) e) [])) :=
  ⟨(claim7_dispatch_order mappingC [evDeposit, evNoKey, evUnknown, evWithdraw]).1,
   (claim7_dispatch_order mappingC [evDeposit, evNoKey, evUnknown, evWithdraw]).2.1,
   (claim7_dispatch_order mappingC [evDeposit, evNoKey, evUnknown, evWithdraw]).2.2 (by decide)⟩

/-- C8: every fetch issued by the per-address loop requests the block
range `[cursor, cursor + window)`: every recorded fetch's upper bound is
its lower bound plus the window, and the first fetch's lower bound is the
cursor the loop was entered with. -/
theorem claim8_fetch_bounds (E : Type) (src : Nat → Nat → List E) (w maxR : Nat) :
    ∀ fuel s fs ps s', runAddr src w maxR fuel s = some (fs, ps, s') →
      (∀ p ∈ fs, p.2 = p.1 + w) ∧
      fs.head? = some (get_data_bounds s.last_block s.last_block w) := by
  intro fuel
  induction fuel with
  | zero =>
    intro s fs ps s' h
    exact Option.noConfusion h
  | succ fuel ih =>
    intro s fs ps s' h
    rw [runAddr_succ] at h
    cases hstep : stepIter src w maxR s with
    | none =>
      simp only [hstep] at h
      simp only [Option.some.injEq, Prod.mk.injEq] at h
      obtain ⟨hfs, _, _⟩ := h
      subst hfs
      exact ⟨by simp [get_data_bounds], rfl⟩
    | some r =>
      obtain ⟨s2, q⟩ := r
      simp only [hstep] at h
      cases hrec : runAddr src w maxR fuel s2 with
      | none =>
        simp only [hrec] at h
        exact Option.noConfusion h
      | some r2 =>
        obtain ⟨fs', ps', s''⟩ := r2
        simp only [hrec] at h
        simp only [Option.some.injEq, Prod.mk.injEq] at h
        obtain ⟨hfs, _, _⟩ := h
        have ihh := ih s2 fs' ps' s'' hrec
        subst hfs
        constructor
        · intro p hp
          rcases List.mem_cons.mp hp with h1 | h2
          · subst h1
            simp [get_data_bounds]
          · exact ihh.1 p h2
        · rfl

/-- C8, witness: the fetch-bounds statement on the three fetches issued
over the always-empty source with window 1000. -/
theorem claim8_fetch_bounds_witness :
    (∀ p ∈ [((0 : Nat), (1000 : Nat)), (1000, 2000), (2000, 3000)], p.2 = p.1 + 1000) ∧
    ([((0 : Nat), (1000 : Nat)), (1000, 2000), (2000, 3000)] : List (Nat × Nat)).head? =
      some (get_data_bounds 0 0 1000) :=
  claim8_fetch_bounds Nat (emptySrc (E := Nat)) 1000 2 3 ⟨0, 0⟩
    [(0, 1000), (1000, 2000), (2000, 3000)] [] ⟨2000, 2⟩ (by decide)

/-- C9: on every iteration of the per-address loop that continues
fetching — whether the page was empty or non-empty — the cursor advances
by exactly the window size, hence strictly increases whenever the window
is positive. -/
theorem claim9_cursor_advance (E : Type) (src : Nat → Nat → List E) (w maxR : Nat)
    (s s' : RunState) (b : Bool) (hstep : stepIter src w maxR s = some (s', b)) :
    s'.last_block = s.last_block + w ∧ (0 < w → s.last_block < s'.last_block) := by
  by_cases hc : (src s.last_block (s.last_block + w)).isEmpty = true ∧ s.retry < maxR
  · have heq : stepIter src w maxR s = some (⟨s.last_block + w, s.retry + 1⟩, false) := by
      simp only [stepIter]
      rw [if_pos hc]
    rw [heq] at hstep
    simp only [Option.some.injEq, Prod.mk.injEq] at hstep
    obtain ⟨hs', _⟩ := hstep
    subst hs'
    exact ⟨rfl, fun hw => Nat.lt_add_of_pos_right hw⟩
  · by_cases hm : s.retry = maxR
    · have heq : stepIter src w maxR s = none := by
        simp only [stepIter]
        rw [if_neg hc, if_pos hm]
      rw [heq] at hstep
      exact Option.noConfusion hstep
    · have heq : stepIter src w maxR s = some (⟨s.last_block + w, s.retry⟩, true) := by
        simp only [stepIter]
        rw [if_neg hc, if_neg hm]
      rw [heq] at hstep
      simp only [Option.some.injEq, Prod.mk.injEq] at hstep
      obtain ⟨hs', _⟩ := hstep
      subst hs'
      exact ⟨rfl, fun hw => Nat.lt_add_of_pos_right hw⟩

/-- C9, witness: the cursor-advance statement at the iteration that
processes the non-empty window `[1000, 2000)`. -/
theorem claim9_cursor_advance_witness :
    (2000 : Nat) = 1000 + 1000 ∧ ((0 : Nat) < 1000 → (1000 : Nat) < 2000) :=
  claim9_cursor_advance Nat srcOneBurst 1000 2 ⟨1000, 1⟩ ⟨2000, 1⟩ true (by decide)

/-- C10, counterexample: a non-empty page in which one record lacks the
`key_name` field does not raise — the column exists because the other
record has the field, the keyless record is silently filtered out, and
the page is processed and projected. -/
theorem claim10_counterexample :
    process_data mappingC [evDeposit, evNoKey] =
      Except.ok [("A", [("X", 100)], [])] ∧
    evNoKey.key_name = none := by
  exact ⟨by rfl, by rfl⟩

/-- C10, amended: `process_data` raises exactly when no retrieved record
carries the `key_name` field (then the DataFrame has no such column and
the access fails before any dispatch); if at least one record carries it,
the access is defined, records lacking the field are skipped, and the
error branch is unreachable — in particular under the precondition that
every record carries the field. -/
theorem claim10_keyerror_iff (mapping : List (String × String)) (data : List RawEvent) :
    (∃ msg, process_data mapping data = Except.error msg) ↔
      ∀ e ∈ data, e.key_name = none := by
  unfold process_data
  by_cases h : data.any (fun e => e.key_name.isSome) = true
  · rw [if_pos h]
    constructor
    · rintro ⟨msg, hmsg⟩
      exact Except.noConfusion hmsg
    · intro hall
      exfalso
      rw [List.any_eq_true] at h
      obtain ⟨e, he, hs⟩ := h
      rw [hall e he] at hs
      exact Bool.noConfusion hs
  · rw [if_neg h]
    constructor
    · intro _ e he
      cases hkey : e.key_name with
      | none => rfl
      | some k => exact absurd (List.any_eq_true.mpr ⟨e, he, by simp [hkey]⟩) h
    · intro _
      exact ⟨"KeyError: key_name", rfl⟩

/-- C10, witness: the error characterization at a one-record page lacking
the field (error) — instantiated from the general statement. -/
theorem claim10_keyerror_iff_witness :
    (∃ msg, process_data mappingC [evNoKey] = Except.error msg) ↔
      ∀ e ∈ [evNoKey], e.key_name = none :=
  claim10_keyerror_iff mappingC [evNoKey]
